import Mathlib

/-
  Verification of the Vertebrae MVC framework core.

  The development shallowly embeds the core of the repository:
  * `BaseModel` statics from `src/event.js` (second module of the file):
    `request` option assembly, `processResponse`, `getAjaxTimeout`,
    the verb shorthands `get`/`post`/`put`/`del`, `getParser`, and the
    declarative route compiler `createModelRequestMethods`.
  * `BaseController` from the controller source file: the `sync` binding
    state machine (deferred view pushes while the view is unavailable)
    and `unload`.

  JavaScript values are embedded as `JsonVal`; asynchronous results are
  embedded as `Except` values (a rejected promise is `.error`, a resolved
  one is `.ok`); thrown exceptions in synchronous code are `Except.error`
  with the thrown message.
-/

set_option maxHeartbeats 1000000

namespace Vertebrae

/-- Shallow embedding of the JavaScript values that flow through the model
and controller layer: `undefined`, `null`, booleans, (integer) numbers,
strings, plain objects as ordered field lists, and arrays. -/
inductive JsonVal where
  | undefined : JsonVal
  | null : JsonVal
  | bool : Bool → JsonVal
  | num : Int → JsonVal
  | str : String → JsonVal
  | obj : List (String × JsonVal) → JsonVal
  | arr : List JsonVal → JsonVal

/-- JavaScript `String.prototype.toLowerCase` on the ASCII strings used in
route and parser declarations. -/
def jsToLower (s : String) : String :=
  String.mk (s.data.map Char.toLower)

/-- JavaScript truthiness of an embedded value (`!!v`): `undefined`, `null`,
`false`, `0` and `""` are falsy; every object or array is truthy. -/
def jsTruthy : JsonVal → Bool
  | .undefined => false
  | .null => false
  | .bool b => b
  | .num n => n != 0
  | .str s => s != ""
  | .obj _ => true
  | .arr _ => true

/-- JavaScript `a || b`: returns `a` when truthy, else `b`. -/
def jsOr (a b : JsonVal) : JsonVal :=
  if jsTruthy a then a else b

/-- JavaScript property read `v[k]`: field lookup on objects (first field
with the key wins), `undefined` on everything else. -/
def objGet : JsonVal → String → JsonVal
  | .obj fs, k =>
    match fs.find? (fun p => p.1 == k) with
    | some p => p.2
    | none => .undefined
  | _, _ => .undefined

/-- JavaScript `delete v[k]` for every key in `ks`: removes the fields from
an object, leaves any other value unchanged. -/
def objDelete (v : JsonVal) (ks : List String) : JsonVal :=
  match v with
  | .obj fs => .obj (fs.filter (fun p => !(ks.contains p.1)))
  | w => w

/-- Underscore's `_.defaults(target, source)`: fills into an object target
every source field whose key the target does not already have; any
non-object target is returned unchanged. -/
def objDefaults (target : JsonVal) (src : List (String × JsonVal)) : JsonVal :=
  match target with
  | .obj fs => .obj (fs ++ src.filter (fun p => !(fs.any (fun q => q.1 == p.1))))
  | t => t

/-- JavaScript string coercion `String(v)` as used when a value is spliced
into a URI (integers print as in JavaScript; object/array coercion is
approximated, no claim exercises it). -/
def jsToString : JsonVal → String
  | .undefined => "undefined"
  | .null => "null"
  | .bool b => cond b "true" "false"
  | .num n => toString n
  | .str s => s
  | .obj _ => "[object Object]"
  | .arr _ => ""

/-! ### Response processing (`BaseModel.processResponse`) -/

/-- The overridable response hooks of a model class: `getResponseDefaults`
(default `null`), `isValidResponse` (default `!!resp`), and the fail and
success payload transforms (default identity). -/
structure ResponseHooks where
  responseDefaults : JsonVal
  isValidResponse : JsonVal → Bool
  getResponseFailPayload : JsonVal → JsonVal
  getResponseSuccessPayload : JsonVal → JsonVal

/-- The hooks as declared on `BaseModel` itself: no response defaults,
validity is truthiness of the body, payload transforms are identity. -/
def defaultHooks : ResponseHooks :=
  { responseDefaults := .null
    isValidResponse := fun resp => jsTruthy resp
    getResponseFailPayload := fun resp => resp
    getResponseSuccessPayload := fun resp => resp }

/-- Embedding of `BaseModel.processResponse(resp)`: applies response
defaults when declared, then rejects with the fail payload when
`isValidResponse(resp || {}, ...)` is false and otherwise resolves with the
success payload of `resp || {}`. -/
def processResponse (h : ResponseHooks) (resp : JsonVal) : Except JsonVal JsonVal :=
  let resp := if jsTruthy h.responseDefaults then
      objDefaults (jsOr resp (.obj [])) (match h.responseDefaults with
        | .obj fs => fs
        | _ => [])
    else resp
  if !(h.isValidResponse (jsOr resp (.obj []))) then
    .error (h.getResponseFailPayload (jsOr resp (.obj [])))
  else
    .ok (h.getResponseSuccessPayload (jsOr resp (.obj [])))

/-! ### Controller unload (`BaseController.unload`) -/

/-- Observable action of a controller teardown: running one registered
unbind callback, firing an event on the controller, or forwarding to the
view's `unload`. -/
inductive CtrlAction where
  | teardown : Nat → CtrlAction
  | fired : String → CtrlAction
  | viewUnload : CtrlAction
deriving DecidableEq

/-- The state of a controller that `unload` can observe and mutate:
the `_unloaded` flag, the `_unbind` stack of registered teardown callbacks
(identified by number, in registration order), and a log of performed
actions. -/
structure CtrlState where
  unloaded : Bool
  unbind : List Nat
  log : List CtrlAction
deriving DecidableEq

/-- Embedding of `BaseController.unload`: a no-op when `_unloaded` is
already `true`; otherwise pops and runs every `_unbind` callback (so they
run in reverse registration order), sets `_unloaded`, triggers `unload`,
and forwards to the view's `unload`. -/
def unload (s : CtrlState) : CtrlState :=
  if s.unloaded then s
  else
    { unloaded := true
      unbind := []
      log := s.log ++ (s.unbind.reverse.map .teardown) ++ [.fired "unload", .viewUnload] }

/-! ### Property synchronization (`BaseController.sync`)

The closures built by `sync` (with the default `filter`, which always
passes) are embedded as a state machine over `SyncState`.  The mutable
variables captured by the closures — `previousValue`, `hasListened` — are
fields; the `prev` argument captured by the one-shot
`listenToOnce(view, 'change:available', ...)` listener registered in
`updateOnAvaible` is the `pending` field; the watched property value
(what `getter()` returns) is `propVal`, with `none` standing for
JavaScript `undefined`.  Invocations of the controller handler
`this[options.targetHandler]` and of the view handler
`this[options.viewHandler]` are recorded, each with its
`(current, previous)` argument pair. -/

/-- Which of the string-dispatched handlers exist on the controller:
`this[fnController]` and `that[fnView]` are only invoked when present. -/
structure SyncConfig where
  hasController : Bool
  hasView : Bool

/-- State of one `sync` binding together with the watched object and the
view availability flag, and the record of handler invocations. -/
structure SyncState (α : Type) where
  propVal : Option α
  previousValue : Option α
  hasListened : Bool
  pending : Option (Option α)
  viewAvailable : Bool
  controllerCalls : List (Option α × Option α)
  viewCalls : List (Option α × Option α)

/-- Embedding of the `updateOnAvaible(prev)` closure: a no-op when a
one-shot listener is already registered (`hasListened`), otherwise sets
`hasListened` and registers the one-shot listener capturing `prev`. -/
def updateOnAvaible (prev : Option α) (s : SyncState α) : SyncState α :=
  if s.hasListened then s
  else { s with hasListened := true, pending := some prev }

/-- Embedding of the `updateView(prev)` closure: when the view handler
exists, pushes `(getter(), prev)` to it if the view is available, and
otherwise defers through `updateOnAvaible(prev)`. -/
def updateView (cfg : SyncConfig) (prev : Option α) (s : SyncState α) : SyncState α :=
  if cfg.hasView then
    if s.viewAvailable then { s with viewCalls := s.viewCalls ++ [(s.propVal, prev)] }
    else updateOnAvaible prev s
  else s

/-- Embedding of the `change:<property>` listener body: reads the current
value, invokes the controller handler with `(current, previous)` when it
exists, pushes to the view through `updateView(previousValue)`, and then
stores the current value as the new `previousValue`.  (The optional `fn`
callback and a non-default `filter` are not exercised by any claim.) -/
def onChange (cfg : SyncConfig) (s : SyncState α) : SyncState α :=
  let current := s.propVal
  let s1 := if cfg.hasController then
      { s with controllerCalls := s.controllerCalls ++ [(current, s.previousValue)] }
    else s
  let s2 := updateView cfg s.previousValue s1
  { s2 with previousValue := current }

/-- A `set` on the watched property followed by its `change:<property>`
notification. -/
def setAndTrigger (cfg : SyncConfig) (v : α) (s : SyncState α) : SyncState α :=
  onChange cfg { s with propVal := some v }

/-- The view's availability transition: `getAvailable()` becomes true and
`change:available` fires, running the pending one-shot listener (if any),
which clears `hasListened` and replays `updateView` with the captured
`prev`. -/
def viewBecameAvailable (cfg : SyncConfig) (s : SyncState α) : SyncState α :=
  let s' : SyncState α := { s with viewAvailable := true }
  if s'.hasListened then
    match s'.pending with
    | some prev => updateView cfg prev { s' with hasListened := false, pending := none }
    | none => { s' with hasListened := false, pending := none }
  else s'

/-- The tail of `sync` after the `change:<property>` listener is attached,
for a call with the `trigger` option false (its default): when
`triggerView` is true (its default) immediately pushes once to the view,
then initializes `previousValue` to `getter()`. -/
def syncBind (cfg : SyncConfig) (triggerView : Bool) (s : SyncState α) : SyncState α :=
  let s1 := if triggerView then updateView cfg none s else s
  { s1 with previousValue := s1.propVal }

/-- Applying a sequence of property updates (each with its change
notification) in order. -/
def applyChanges (cfg : SyncConfig) (vs : List α) (s : SyncState α) : SyncState α :=
  vs.foldl (fun t v => setAndTrigger cfg v t) s

/-- Modelled from the spec: `StringUtils.camelCase` (not under `src/`) —
the camel-cased form of a name, its first letter upper-cased. -/
def camelCase (s : String) : String :=
  match s.data with
  | [] => ""
  | c :: cs => String.mk (c.toUpper :: cs)

/-- Splits a character list at every `'.'`, the first argument holding the
(reversed) current segment. -/
def dotSegs : List Char → List Char → List (List Char)
  | acc, [] => [acc.reverse]
  | acc, '.' :: cs => acc.reverse :: dotSegs [] cs
  | acc, c :: cs => dotSegs (c :: acc) cs

/-- Modelled from the spec: `StringUtils.camelCaseFromNamespace` (not under
`src/`) camel-cases every dot-separated segment of a property path and
joins them. -/
def camelCaseFromNamespace (s : String) : String :=
  String.join ((dotSegs [] s.data).map (fun cs => camelCase (String.mk cs)))

/-- The defaulted `accessor`, `targetHandler` and `viewHandler` option
values computed by `sync` for a (single-segment) property name. -/
structure SyncNames where
  accessor : String
  targetHandler : String
  viewHandler : String

/-- Embedding of the `_.defaults(options, ...)` name derivation in `sync`
for a property path whose last segment is the path itself. -/
def syncDefaultNames (property : String) : SyncNames :=
  { accessor := "get" ++ camelCase property
    targetHandler := property ++ "DidChange"
    viewHandler := "refresh" ++ camelCaseFromNamespace property ++ "PropertyOnView" }

/-! ### Parser registry (`getParser`, parser prepending in `BaseModel.extend`) -/

/-- One compiled parser entry as produced by `parseParsers`: the compiled
URI regular expression (embedded as its match predicate), the callback
(identified by the handler name it dispatches to), and the optional
lower-cased request type. -/
structure ParserEntry where
  uri : String → Bool
  callback : String
  type : Option String

/-- The scan loop of `BaseModel.getParser` over the compiled `_parsers`
list (the requested type already coerced and lower-cased): entries whose
`type` is truthy and differs from the requested type are skipped; the
callback of the first remaining entry whose regex matches the URI is
returned. -/
def getParserGo (uri rty : String) : List ParserEntry → Option String
  | [] => none
  | p :: rest =>
    if (match p.type with | some t => t != "" && t != rty | none => false) then
      getParserGo uri rty rest
    else if p.uri uri then some p.callback
    else getParserGo uri rty rest

/-- Embedding of `BaseModel.getParser(uri, type)`: lower-cases the
requested type and scans the compiled parser entries in order. -/
def getParser (parsers : List ParserEntry) (uri ty : String) : Option String :=
  getParserGo uri (jsToLower ty) parsers

/-- Embedding of the `_parsers` assembly in `BaseModel.extend`:
`parseParsers(stat).concat(this._parsers || [])` — the subclass's compiled
entries are prepended to the parent's. -/
def extendParsers (childCompiled parentEntries : List ParserEntry) : List ParserEntry :=
  childCompiled ++ parentEntries

/-- Whether a parser entry is accepted by the scan for a request: its type
is absent (or falsy) or equal to the lower-cased requested type, and its
compiled regex matches the URI. -/
def parserAccepts (rty uri : String) (p : ParserEntry) : Bool :=
  (match p.type with | some t => t == "" || t == rty | none => true) && p.uri uri

/-! ### Request option assembly (`BaseModel.request` and the verb shorthands) -/

/-- The static model configuration consumed by `request`: the declared
`timeout` (any value; `getAjaxTimeout` coerces it) and the `rootURI`. -/
structure ModelStatics where
  timeout : JsonVal
  rootURI : String

/-- The statics as declared on `BaseModel` itself: `timeout: 30000`,
`rootURI: '/'`. -/
def baseModelStatics : ModelStatics :=
  { timeout := .num 30000, rootURI := "/" }

/-- Accumulates the value of a nonempty decimal digit run, `none` on any
non-digit character. -/
def digitsValAux : Nat → List Char → Option Nat
  | acc, [] => some acc
  | acc, c :: cs =>
    if c.isDigit then digitsValAux (acc * 10 + (c.toNat - '0'.toNat)) cs else none

/-- The value of a nonempty all-digit character run. -/
def digitsVal : List Char → Option Nat
  | [] => none
  | cs => digitsValAux 0 cs

/-- JavaScript `Number(string)` on the strings that matter here: the empty
string is `0`, an optionally `-`-signed decimal numeral is its value, and
anything else is `NaN` (`none`). -/
def jsStrToNumber (s : String) : Option Int :=
  match s.data with
  | [] => some 0
  | '-' :: cs => (digitsVal cs).map (fun n => -(n : Int))
  | cs => (digitsVal cs).map (fun n => (n : Int))

/-- JavaScript `Number(v)` coercion, `none` standing for `NaN`
(string coercion covers integer numerals; array/object coercion is
approximated as `NaN`, and no claim configures a timeout with either). -/
def jsToNumber : JsonVal → Option Int
  | .undefined => none
  | .null => some 0
  | .bool b => some (cond b 1 0)
  | .num n => some n
  | .str s => jsStrToNumber s
  | .obj _ => none
  | .arr _ => none

/-- Embedding of `BaseModel.getAjaxTimeout`: `Number(this.timeout) || 500`,
so `500` whenever the coercion is `NaN` or `0`. -/
def getAjaxTimeout (m : ModelStatics) : Int :=
  match jsToNumber m.timeout with
  | some n => if n = 0 then 500 else n
  | none => 500

/-- The jQuery-style options object assembled by `request` and handed to
the transport; `none` in a field stands for an absent key. -/
structure AjaxOptions where
  url : Option String := none
  data : Option JsonVal := none
  type : Option String := none
  timeout : Option Int := none
  contentType : Option String := none
  processData : Option Bool := none
  jsonBody : Option JsonVal := none

mutual

/-- `JSON.stringify` on embedded values (strings are emitted unescaped;
no claim serializes a string needing escapes). -/
def jsonStringify : JsonVal → String
  | .undefined => "null"
  | .null => "null"
  | .bool b => cond b "true" "false"
  | .num n => toString n
  | .str s => "\"" ++ s ++ "\""
  | .obj fs => "\x7b" ++ jsonStringifyFields fs ++ "\x7d"
  | .arr xs => "[" ++ jsonStringifyElems xs ++ "]"

/-- Comma-separated `"key":value` serialization of object fields. -/
def jsonStringifyFields : List (String × JsonVal) → String
  | [] => ""
  | [(k, v)] => "\"" ++ k ++ "\":" ++ jsonStringify v
  | (k, v) :: rest => "\"" ++ k ++ "\":" ++ jsonStringify v ++ "," ++ jsonStringifyFields rest

/-- Comma-separated serialization of array elements. -/
def jsonStringifyElems : List JsonVal → String
  | [] => ""
  | [v] => jsonStringify v
  | v :: rest => jsonStringify v ++ "," ++ jsonStringifyElems rest

end

/-- Embedding of the option assembly in `BaseModel.request(uri, params,
options)` up to the transport call: defaults `data` to `params` and `url`
to `rootURI + uri`, overwrites `timeout` with `getAjaxTimeout()`, and when
`options.jsonBody` is truthy serializes `data` to a JSON string, sets the
content type to `application/json` and marks the body pre-encoded
(`processData: false`). -/
def buildRequestOptions (m : ModelStatics) (uri : String) (params : JsonVal)
    (options : AjaxOptions) : AjaxOptions :=
  let o := { options with
    data := some (options.data.getD params)
    url := some (options.url.getD (m.rootURI ++ uri)) }
  let o := { o with timeout := some (getAjaxTimeout m) }
  if jsTruthy (o.jsonBody.getD .undefined) then
    { o with
      contentType := some "application/json"
      data := some (.str (jsonStringify (o.data.getD .undefined)))
      processData := some false }
  else o

/-- `_.defaults(options || {}, { type: ty, ... })` as performed by the verb
shorthands: fills `type`, and for `put` also `jsonBody`. -/
def withVerbDefaults (o : AjaxOptions) (ty : String) (jb : Option JsonVal) : AjaxOptions :=
  { o with
    type := some (o.type.getD ty)
    jsonBody := match o.jsonBody with | some x => some x | none => jb }

/-- Embedding of `BaseModel.get`: `request` with `{ type: 'GET' }` defaults. -/
def getRequestOptions (m : ModelStatics) (uri : String) (params : JsonVal)
    (o : AjaxOptions) : AjaxOptions :=
  buildRequestOptions m uri params (withVerbDefaults o "GET" none)

/-- Embedding of `BaseModel.post`: `request` with `{ type: 'POST' }` defaults. -/
def postRequestOptions (m : ModelStatics) (uri : String) (params : JsonVal)
    (o : AjaxOptions) : AjaxOptions :=
  buildRequestOptions m uri params (withVerbDefaults o "POST" none)

/-- Embedding of `BaseModel.put`: `request` with `{ type: 'PUT',
jsonBody: true }` defaults. -/
def putRequestOptions (m : ModelStatics) (uri : String) (params : JsonVal)
    (o : AjaxOptions) : AjaxOptions :=
  buildRequestOptions m uri params (withVerbDefaults o "PUT" (some (.bool true)))

/-- Embedding of `BaseModel.del`: `request` with `{ type: 'DELETE' }`
defaults. -/
def delRequestOptions (m : ModelStatics) (uri : String) (params : JsonVal)
    (o : AjaxOptions) : AjaxOptions :=
  buildRequestOptions m uri params (withVerbDefaults o "DELETE" none)

/-! ### Route compiler (`createModelRequestMethods`) -/

/-- Helper for `String.trim().split(/\s+/)`: splits a character list into
its maximal whitespace-free fields, the first argument accumulating the
(reversed) current field. -/
def wsFieldsAux : List Char → List Char → List (List Char)
  | acc, [] => if acc.isEmpty then [] else [acc.reverse]
  | acc, c :: cs =>
    if c.isWhitespace then
      if acc.isEmpty then wsFieldsAux [] cs else acc.reverse :: wsFieldsAux [] cs
    else wsFieldsAux (c :: acc) cs

/-- `String(route).trim().split(/\s+/)`: the whitespace-separated fields of
the route string, `[""]` when the string is empty or all whitespace (as in
JavaScript). -/
def splitWs (s : String) : List String :=
  let fs := (wsFieldsAux [] s.data).map String.mk
  if fs.isEmpty then [""] else fs

/-- One compiled route: the (normalized, lower-cased) verb method name the
generated function dispatches to, the URI template, the original route
string (used in the missing-parameter error message), and the static
options captured from an object-valued route entry. -/
structure CompiledRoute where
  verb : String
  uri : String
  route : String
  staticOpts : Option (List (String × JsonVal))

/-- The `sections`/`method`/`uri` decomposition at the top of
`createMethod`: the first field lower-cased, and the remaining fields
joined with the empty separator. -/
def routeParts (route : String) : String × String :=
  let sections := splitWs route
  (jsToLower (sections.headD "undefined"), String.join (sections.drop 1))

/-- Builds the compiled route stored in `routes[fn]`, normalizing the verb
`delete` to the internal alias `del`. -/
def mkRoute (fn : String) (opts : Option (List (String × JsonVal)))
    (method uri route : String) : String × CompiledRoute :=
  (fn, { verb := if method == "delete" then "del" else method
         uri := uri, route := route, staticOpts := opts })

/-- The `crudMethods` name prefix for each CRUD verb. -/
def crudMethodBase (m : String) : String :=
  if m == "POST" then "requestCreate"
  else if m == "GET" then "requestOne"
  else if m == "PUT" then "requestUpdate"
  else "requestDelete"

/-- The URI suffix the CRUD expansion appends for each verb: `/:$0` for
GET, `/:id` for PUT and DEL, nothing for POST. -/
def crudSuffix (m : String) : String :=
  if m == "GET" then "/:$0"
  else if m == "PUT" || m == "DEL" then "/:id"
  else ""

/-- The CRUD branch of `createMethod`: for each of POST, GET, PUT, DEL it
builds the route `m + ' ' + uri` (plus the verb's suffix) and compiles it
under the name `crudMethods[m] + camelCase(fn)` exactly as the recursive
`createMethod` call would (none of the generated routes is itself CRUD). -/
def crudExpand (fn uri : String) : List (String × CompiledRoute) :=
  ["POST", "GET", "PUT", "DEL"].map fun m =>
    let newRoute := m ++ " " ++ uri ++ crudSuffix m
    let parts := routeParts newRoute
    mkRoute (crudMethodBase m ++ camelCase fn) none parts.1 parts.2 newRoute

/-- The value-shape dispatch at the top of `createMethod`: a string value
is the method name, an object value carries the name under `fn` (JavaScript
coerces a missing `fn` to the key `"undefined"`) plus static options, and
anything else throws. -/
def extractRouteFn : JsonVal → Except String (String × Option (List (String × JsonVal)))
  | .str s => .ok (s, none)
  | .obj fields => .ok (jsToString (objGet (.obj fields) "fn"), some fields)
  | _ => .error "The value of the model route mapping must be a string or an object."

/-- Embedding of `createMethod(options, route)`: splits the route, extracts
the method name and static options from the value, expands CRUD entries
into their four generated methods (producing no method for the CRUD entry
itself), and otherwise produces the single compiled route. -/
def createMethod (value : JsonVal) (route : String) :
    Except String (List (String × CompiledRoute)) :=
  let parts := routeParts route
  match extractRouteFn value with
  | .error e => .error e
  | .ok (fn, opts) =>
    if parts.1 == "crud" then .ok (crudExpand fn parts.2)
    else .ok [mkRoute fn opts parts.1 parts.2 route]

/-- JavaScript property assignment `routes[k] = v`: replaces an existing
field in place, otherwise appends (insertion order preserved). -/
def objSet (rs : List (String × CompiledRoute)) (k : String) (v : CompiledRoute) :
    List (String × CompiledRoute) :=
  if rs.any (fun p => p.1 == k) then rs.map (fun p => if p.1 == k then (k, v) else p)
  else rs ++ [(k, v)]

/-- Embedding of `createModelRequestMethods(map)`: compiles every entry of
the route map in order into the `routes` object (a throw aborts the whole
compilation, as in JavaScript). -/
def createModelRequestMethods (map : List (String × JsonVal)) :
    Except String (List (String × CompiledRoute)) :=
  map.foldlM (fun routes entry => do
    let new ← createMethod entry.2 entry.1
    pure (new.foldl (fun rs p => objSet rs p.1 p.2) routes)) []

/-! ### Generated request functions (placeholder substitution) -/

/-- A piece of a URI template as scanned by the global regex
`:[\$]?\w+`: a literal character, or a placeholder name (which starts with
`$` exactly for positional placeholders). -/
inductive UriToken where
  | lit : Char → UriToken
  | ph : String → UriToken

/-- A regex word character, `\w`. -/
def isWordChar (c : Char) : Bool :=
  c.isAlpha || c.isDigit || c == '_'

/-- Fuelled scan of the URI template for `:[\$]?\w+` matches; a `:` not
followed by a (possibly `$`-prefixed) nonempty word is literal. -/
def tokGo : Nat → List Char → List UriToken
  | 0, _ => []
  | _ + 1, [] => []
  | fuel + 1, ':' :: rest =>
    match rest with
    | '$' :: rest2 =>
      let w := rest2.takeWhile isWordChar
      if w.isEmpty then .lit ':' :: tokGo fuel rest
      else .ph (String.mk ('$' :: w)) :: tokGo fuel (rest2.dropWhile isWordChar)
    | _ =>
      let w := rest.takeWhile isWordChar
      if w.isEmpty then .lit ':' :: tokGo fuel rest
      else .ph (String.mk w) :: tokGo fuel (rest.dropWhile isWordChar)
  | fuel + 1, c :: rest => .lit c :: tokGo fuel rest

/-- The token list of a URI template. -/
def tokenizeUri (s : String) : List UriToken :=
  tokGo (s.data.length + 1) s.data

/-- The `String(uri).replace(/:[\$]?\w+/g, ...)` callback of a generated
request function, threading the `counter` into `args` and the `toDelete`
list left to right: a `$`-placeholder consumes the next argument, a named
placeholder reads a truthy key of the params clone (recording it for
deletion), and a missing named parameter throws. -/
def substTokens (args : List JsonVal) (data0 : JsonVal) (route : String) :
    List UriToken → Nat → List String → String →
    Except String (String × Nat × List String)
  | [], counter, td, acc => .ok (acc, counter, td)
  | .lit c :: ts, counter, td, acc =>
    substTokens args data0 route ts counter td (acc.push c)
  | .ph name :: ts, counter, td, acc =>
    if name.data.headD ' ' == '$' then
      substTokens args data0 route ts (counter + 1) td
        (acc ++ jsToString (args.getD counter .undefined))
    else if jsTruthy data0 && jsTruthy (objGet data0 name) then
      substTokens args data0 route ts counter (td ++ [name])
        (acc ++ jsToString (objGet data0 name))
    else
      .error ("The route " ++ route ++ " must include " ++ name ++ " in your params")

/-- The verb-specific call a generated request function finally makes:
`this[method](replacedUri, data, opts)`. -/
structure RequestCall where
  verb : String
  uri : String
  data : JsonVal
  opts : JsonVal

/-- Embedding of the generated `routes[fn]` function applied to its
`arguments` list: substitutes the URI template (throwing on a missing
named parameter), then takes `args[counter]` as the outgoing body and
`args[counter + 1]` as the call options (each defaulted to `{}` when
falsy), removes the consumed named keys from the body, fills the static
options into the call options, and dispatches to the verb method. -/
def invoke (r : CompiledRoute) (args : List JsonVal) : Except String RequestCall :=
  match substTokens args (args.getD 0 .undefined) r.route (tokenizeUri r.uri) 0 [] "" with
  | .error e => .error e
  | .ok (uri, counter, td) =>
    let data := objDelete (jsOr (args.getD counter .undefined) (.obj [])) td
    let opts := jsOr (args.getD (counter + 1) .undefined) (.obj [])
    let opts := match r.staticOpts with
      | some so => objDefaults opts so
      | none => opts
    .ok { verb := r.verb, uri := uri, data := data, opts := opts }

/-! ### Concrete fixtures used by the theorems below -/

/-- The route compiled from the map entry `'GET foo/:id': 'fetchFoo'`. -/
def fooRoute : CompiledRoute :=
  { verb := "get", uri := "foo/:id", route := "GET foo/:id", staticOpts := none }

/-- A subclass parser list with a single verb-agnostic entry matching the
URI `a/1`. -/
def childParsers : List ParserEntry :=
  [{ uri := fun u => u == "a/1", callback := "childHandler", type := none }]

/-- A parent parser list whose entry matches the same URI `a/1`. -/
def parentParsers : List ParserEntry :=
  [{ uri := fun u => u == "a/1", callback := "parentHandler", type := none }]

/-! ## Theorems -/

/-- Claim C2 (code bug): the claim says a `null` transport body always
rejects because the default validity guard short-circuits on falsy bodies
before delegating to `isValidResponse` — but `processResponse` passes
`resp || {}` into `isValidResponse`, so a `null` body is seen as the
truthy `{}` and the request resolves with `{}` under the default hooks,
and also under any custom `isValidResponse` that accepts `{}` (the code's
own comment, "If we have a NULL response ... then we reject", states the
claimed behaviour). -/
theorem c2_null_body_resolves :
    processResponse defaultHooks JsonVal.null = Except.ok (JsonVal.obj []) ∧
    processResponse { defaultHooks with isValidResponse := fun _ => true } JsonVal.null =
      Except.ok (JsonVal.obj []) ∧
    ∀ f : JsonVal → Bool,
      processResponse { defaultHooks with isValidResponse := f } JsonVal.null =
        if f (JsonVal.obj []) then Except.ok (JsonVal.obj [])
        else Except.error (JsonVal.obj []) := by
  refine ⟨rfl, rfl, fun f => ?_⟩
  by_cases h : f (JsonVal.obj []) = true <;>
    simp [processResponse, defaultHooks, jsTruthy, jsOr, h]

/-- Claim C9: `unload` is idempotent — a second call is a no-op — and a
first call on a not-yet-unloaded controller runs the registered teardown
callbacks in reverse registration order (LIFO), marks the controller
unloaded, fires the `unload` event, and forwards to the view's unload. -/
theorem c9_unload_idempotent (s : CtrlState) :
    unload (unload s) = unload s ∧
    (s.unloaded = false →
      unload s = { unloaded := true, unbind := [],
                   log := s.log ++ (s.unbind.reverse.map CtrlAction.teardown) ++
                          [CtrlAction.fired "unload", CtrlAction.viewUnload] }) := by
  constructor
  · by_cases h : s.unloaded <;> simp [unload, h]
  · intro h; simp [unload, h]

/-- Witness for C9 at a controller with three registered teardowns. -/
theorem c9_unload_idempotent_witness :
    unload (unload ⟨false, [1, 2, 3], []⟩) = unload ⟨false, [1, 2, 3], []⟩ ∧
    unload ⟨false, [1, 2, 3], []⟩ =
      ⟨true, [], [.teardown 3, .teardown 2, .teardown 1, .fired "unload", .viewUnload]⟩ := by
  exact ⟨(c9_unload_idempotent ⟨false, [1, 2, 3], []⟩).1,
    ((c9_unload_idempotent ⟨false, [1, 2, 3], []⟩).2 rfl).trans (by rfl)⟩

/-- Claim C5: with the view initially unavailable and `title` initially
unset, `sync('title')` (default options, so the controller handler is
`titleDidChange` and the view handler is `refreshTitlePropertyOnView`)
followed by an update of `title` to `"Hello"` fires the controller handler
synchronously at change time with `("Hello", undefined)` while the view
handler has not yet run; the view handler runs only on the view's
availability transition, receiving `("Hello", undefined)`. -/
theorem c5_sync_title_scenario :
    (syncDefaultNames "title").targetHandler = "titleDidChange" ∧
    (syncDefaultNames "title").viewHandler = "refreshTitlePropertyOnView" ∧
    (setAndTrigger ⟨true, true⟩ "Hello"
        (syncBind ⟨true, true⟩ true ⟨none, none, false, none, false, [], []⟩)).controllerCalls =
      [(some "Hello", none)] ∧
    (setAndTrigger ⟨true, true⟩ "Hello"
        (syncBind ⟨true, true⟩ true ⟨none, none, false, none, false, [], []⟩)).viewCalls = [] ∧
    (viewBecameAvailable ⟨true, true⟩ (setAndTrigger ⟨true, true⟩ "Hello"
        (syncBind ⟨true, true⟩ true ⟨none, none, false, none, false, [], []⟩))).viewCalls =
      [(some "Hello", none)] := by
  exact ⟨rfl, rfl, rfl, rfl, rfl⟩

/-- Claim C1 (counterexample): with the view unavailable and the property
initially `0`, after `sync` (with `triggerView: false`, isolating the
change-driven pushes) and two changes `0 → 1 → 2`, the availability
transition replays the deferred push with the previous value `0` captured
at the first change's deferral — not the previous value `1` that the most
recently registered deferral attempt (at the second change) captured, as
the claim states. -/
theorem c1_counterexample :
    (viewBecameAvailable ⟨true, true⟩ (setAndTrigger ⟨true, true⟩ 2 (setAndTrigger ⟨true, true⟩ 1
        (syncBind ⟨true, true⟩ false ⟨some 0, none, false, none, false, [], []⟩)))).viewCalls =
      [(some 2, some 0)] ∧
    (viewBecameAvailable ⟨true, true⟩ (setAndTrigger ⟨true, true⟩ 2 (setAndTrigger ⟨true, true⟩ 1
        (syncBind ⟨true, true⟩ false ⟨some 0, none, false, none, false, [], []⟩)))).viewCalls ≠
      [(some 2, some 1)] := by
  exact ⟨rfl, by decide⟩

/-- A change notification arriving while the view is unavailable and no
one-shot listener is registered yet: the binding defers, capturing the
current `previousValue`. -/
theorem setAndTrigger_first_deferral {α : Type} (cfg : SyncConfig) (hv : cfg.hasView = true)
    (v : α) (t : SyncState α) (h1 : t.viewAvailable = false) (h2 : t.hasListened = false) :
    setAndTrigger cfg v t =
      { t with propVal := some v, previousValue := some v,
               hasListened := true, pending := some t.previousValue,
               controllerCalls := if cfg.hasController then
                   t.controllerCalls ++ [(some v, t.previousValue)]
                 else t.controllerCalls } := by
  by_cases hc : cfg.hasController <;>
    simp [setAndTrigger, onChange, updateView, updateOnAvaible, hv, h1, h2, hc]

/-- A change notification arriving while the view is unavailable and a
one-shot listener is already registered: the deferral attempt is dropped
and the pending capture is left untouched. -/
theorem setAndTrigger_deferral_dropped {α : Type} (cfg : SyncConfig) (hv : cfg.hasView = true)
    (v : α) (t : SyncState α) (h1 : t.viewAvailable = false) (h2 : t.hasListened = true) :
    setAndTrigger cfg v t =
      { t with propVal := some v, previousValue := some v,
               controllerCalls := if cfg.hasController then
                   t.controllerCalls ++ [(some v, t.previousValue)]
                 else t.controllerCalls } := by
  by_cases hc : cfg.hasController <;>
    simp [setAndTrigger, onChange, updateView, updateOnAvaible, hv, h1, h2, hc]

/-- While a deferred push is pending and the view stays unavailable, any
further changes leave the registered one-shot capture, the view-call
record and the listener flag untouched; the property value tracks the
last change. -/
theorem applyChanges_while_pending {α : Type} (cfg : SyncConfig) (hv : cfg.hasView = true)
    (vs : List α) (t : SyncState α) (h1 : t.viewAvailable = false) (h2 : t.hasListened = true) :
    (applyChanges cfg vs t).viewAvailable = false ∧
    (applyChanges cfg vs t).hasListened = true ∧
    (applyChanges cfg vs t).pending = t.pending ∧
    (applyChanges cfg vs t).viewCalls = t.viewCalls ∧
    (applyChanges cfg vs t).propVal = vs.foldl (fun _ v => some v) t.propVal := by
  induction vs generalizing t with
  | nil => exact ⟨h1, h2, rfl, rfl, rfl⟩
  | cons v vs ih =>
    have hstep := setAndTrigger_deferral_dropped cfg hv v t h1 h2
    have happ : applyChanges cfg (v :: vs) t = applyChanges cfg vs (setAndTrigger cfg v t) := rfl
    rw [happ, hstep]
    exact ih _ h1 h2

/-- Folding a last-one-wins update over a list ends at its last element. -/
theorem foldl_some_last {α : Type} (vs : List α) (v : α) :
    vs.foldl (fun (_ : Option α) x => some x) (some v) = some (vs.getLastD v) := by
  induction vs generalizing v with
  | nil => rfl
  | cons x xs ih => rw [List.getLastD_cons]; exact ih x

/-- Claim C1 (amended): at most one deferred view push is pending per
binding at any time (`updateOnAvaible` drops every deferral attempt while
one is registered), and when multiple `change:<property>` notifications
occur before the view becomes available, the single push that fires on the
availability transition is the one registered at the FIRST such change: it
passes the previous value captured at that first deferral, while the
current value is read fresh at fire time (so it is the last value set). -/
theorem c1_first_deferral_wins {α : Type} (cfg : SyncConfig) (hv : cfg.hasView = true)
    (v : α) (vs : List α) (s : SyncState α)
    (h1 : s.viewAvailable = false) (h2 : s.hasListened = false) :
    (applyChanges cfg (v :: vs) s).hasListened = true ∧
    (applyChanges cfg (v :: vs) s).pending = some s.previousValue ∧
    (applyChanges cfg (v :: vs) s).viewCalls = s.viewCalls ∧
    (viewBecameAvailable cfg (applyChanges cfg (v :: vs) s)).viewCalls =
      s.viewCalls ++ [(some (vs.getLastD v), s.previousValue)] := by
  have hstep := setAndTrigger_first_deferral cfg hv v s h1 h2
  have happ : applyChanges cfg (v :: vs) s = applyChanges cfg vs (setAndTrigger cfg v s) := rfl
  obtain ⟨_, p2, p3, p4, p5⟩ :=
    applyChanges_while_pending cfg hv vs (setAndTrigger cfg v s)
      (by rw [hstep]; exact h1) (by rw [hstep])
  have q3 : (applyChanges cfg vs (setAndTrigger cfg v s)).pending = some s.previousValue :=
    p3.trans (by rw [hstep])
  have q4 : (applyChanges cfg vs (setAndTrigger cfg v s)).viewCalls = s.viewCalls :=
    p4.trans (by rw [hstep])
  have q5 : (applyChanges cfg vs (setAndTrigger cfg v s)).propVal = some (vs.getLastD v) := by
    rw [p5, hstep]
    exact foldl_some_last vs v
  refine ⟨by rw [happ]; exact p2, by rw [happ]; exact q3, by rw [happ]; exact q4, ?_⟩
  rw [happ]
  simp only [viewBecameAvailable, p2, q3, updateView, hv, if_true]
  simp [q4, q5]

/-- Witness for C1 (amended): property initially `0`, changes to `1` then
`2` while the view is unavailable; the availability transition fires one
view push `(2, undefined)` with the previous value captured at the first
change. -/
theorem c1_first_deferral_wins_witness :
    (applyChanges ⟨true, true⟩ [1, 2] ⟨some 0, none, false, none, false, [], []⟩).hasListened = true ∧
    (applyChanges ⟨true, true⟩ [1, 2] ⟨some 0, none, false, none, false, [], []⟩).pending =
      some none ∧
    (applyChanges ⟨true, true⟩ [1, 2] ⟨some 0, none, false, none, false, [], []⟩).viewCalls = [] ∧
    (viewBecameAvailable ⟨true, true⟩
        (applyChanges ⟨true, true⟩ [1, 2] ⟨some 0, none, false, none, false, [], []⟩)).viewCalls =
      [] ++ [(some 2, none)] :=
  c1_first_deferral_wins ⟨true, true⟩ rfl 1 [2] ⟨some 0, none, false, none, false, [], []⟩ rfl rfl

/-- The scan loop of `getParser` returns exactly the callback of the first
entry accepted for the request (verb absent-or-equal, regex match). -/
theorem getParserGo_eq_find (uri rty : String) (ps : List ParserEntry) :
    getParserGo uri rty ps = (ps.find? (parserAccepts rty uri)).map ParserEntry.callback := by
  induction ps with
  | nil => rfl
  | cons p rest ih =>
    unfold getParserGo
    cases ht : p.type with
    | none =>
      by_cases hu : p.uri uri = true <;>
        simp [List.find?_cons, parserAccepts, ht, hu, ih]
    | some t =>
      by_cases he : t = "" <;> by_cases hr : t = rty <;> by_cases hu : p.uri uri = true <;>
        simp [List.find?_cons, parserAccepts, ht, he, hr, hu, ih]

/-- A list whose prefix already contains an accepted element resolves
within the prefix. -/
theorem find?_append_left {β : Type} (p : β → Bool) (l₁ l₂ : List β)
    (h : ∃ x ∈ l₁, p x = true) : (l₁ ++ l₂).find? p = l₁.find? p := by
  induction l₁ with
  | nil => obtain ⟨x, hx, _⟩ := h; cases hx
  | cons a l₁ ih =>
    by_cases ha : p a = true
    · simp [List.find?_cons, ha]
    · obtain ⟨x, hx, hpx⟩ := h
      rcases List.mem_cons.mp hx with rfl | hmem
      · exact absurd hpx ha
      · simp [List.find?_cons, ha, ih ⟨x, hmem, hpx⟩]

/-- An accepted element makes `find?` succeed. -/
theorem find?_isSome_of_exists {β : Type} (p : β → Bool) (l : List β)
    (h : ∃ x ∈ l, p x = true) : (l.find? p).isSome = true := by
  induction l with
  | nil => obtain ⟨x, hx, _⟩ := h; cases hx
  | cons a l ih =>
    by_cases ha : p a = true
    · simp [List.find?_cons, ha]
    · obtain ⟨x, hx, hpx⟩ := h
      rcases List.mem_cons.mp hx with rfl | hmem
      · exact absurd hpx ha
      · simp [List.find?_cons, ha, ih ⟨x, hmem, hpx⟩]

/-- Claim C6: `getParser` scans the compiled entries in order, skips every
entry whose verb is set and differs from the requested verb, and returns
the callback of the first entry whose compiled regex matches the URI
(`none` when no entry matches); and since `BaseModel.extend` prepends a
subclass's compiled entries to the parent's, a URI matched by an entry of
the subclass resolves within the subclass's own entries — the
most-derived declaration wins. -/
theorem c6_parser_resolution (child parent : List ParserEntry) (uri ty : String)
    (h : ∃ p ∈ child, parserAccepts (jsToLower ty) uri p = true) :
    getParser (extendParsers child parent) uri ty = getParser child uri ty ∧
    (getParser child uri ty).isSome = true ∧
    ∀ ps : List ParserEntry,
      getParser ps uri ty = (ps.find? (parserAccepts (jsToLower ty) uri)).map ParserEntry.callback := by
  refine ⟨?_, ?_, fun ps => getParserGo_eq_find uri (jsToLower ty) ps⟩
  · unfold getParser extendParsers
    rw [getParserGo_eq_find, getParserGo_eq_find, find?_append_left _ _ _ h]
  · unfold getParser
    rw [getParserGo_eq_find]
    simp [find?_isSome_of_exists _ _ h]

/-- Witness for C6: child and parent each declare an entry matching the
URI `a/1`; resolution returns the child's callback. -/
theorem c6_parser_resolution_witness :
    getParser (extendParsers childParsers parentParsers) "a/1" "GET" =
      getParser childParsers "a/1" "GET" ∧
    getParser childParsers "a/1" "GET" = some "childHandler" := by
  have h := c6_parser_resolution childParsers parentParsers "a/1" "GET"
    ⟨{ uri := fun u => u == "a/1", callback := "childHandler", type := none },
      by simp [childParsers], rfl⟩
  exact ⟨h.1, rfl⟩

/-- Claim C7: a request with `options.jsonBody` truthy and params
`{a: 1}` goes out with the literal JSON string body `'{"a":1}'`, content
type `application/json`, and the body marked pre-encoded
(`processData: false`); the `put` shorthand defaults `jsonBody` to true
while `get`, `post` and `del` do not. -/
theorem c7_json_body (m : ModelStatics) (uri : String) :
    (buildRequestOptions m uri (.obj [("a", .num 1)]) { jsonBody := some (.bool true) }).data =
      some (.str "\x7b\"a\":1\x7d") ∧
    (buildRequestOptions m uri (.obj [("a", .num 1)])
        { jsonBody := some (.bool true) }).contentType = some "application/json" ∧
    (buildRequestOptions m uri (.obj [("a", .num 1)])
        { jsonBody := some (.bool true) }).processData = some false ∧
    (putRequestOptions m uri (.obj [("a", .num 1)]) {}).jsonBody = some (.bool true) ∧
    (putRequestOptions m uri (.obj [("a", .num 1)]) {}).data = some (.str "\x7b\"a\":1\x7d") ∧
    (putRequestOptions m uri (.obj [("a", .num 1)]) {}).contentType = some "application/json" ∧
    (putRequestOptions m uri (.obj [("a", .num 1)]) {}).type = some "PUT" ∧
    (getRequestOptions m uri (.obj [("a", .num 1)]) {}).jsonBody = none ∧
    (getRequestOptions m uri (.obj [("a", .num 1)]) {}).data = some (.obj [("a", .num 1)]) ∧
    (getRequestOptions m uri (.obj [("a", .num 1)]) {}).contentType = none ∧
    (postRequestOptions m uri (.obj [("a", .num 1)]) {}).jsonBody = none ∧
    (postRequestOptions m uri (.obj [("a", .num 1)]) {}).contentType = none ∧
    (delRequestOptions m uri (.obj [("a", .num 1)]) {}).jsonBody = none ∧
    (delRequestOptions m uri (.obj [("a", .num 1)]) {}).contentType = none := by
  exact ⟨rfl, rfl, rfl, rfl, rfl, rfl, rfl, rfl, rfl, rfl, rfl, rfl, rfl, rfl⟩

/-- Witness for C7 on the declared `BaseModel` statics. -/
theorem c7_json_body_witness :
    (buildRequestOptions baseModelStatics "x" (.obj [("a", .num 1)])
        { jsonBody := some (.bool true) }).data = some (.str "\x7b\"a\":1\x7d") ∧
    (putRequestOptions baseModelStatics "x" (.obj [("a", .num 1)]) {}).contentType =
      some "application/json" ∧
    (getRequestOptions baseModelStatics "x" (.obj [("a", .num 1)]) {}).jsonBody = none :=
  ⟨(c7_json_body baseModelStatics "x").1,
    (c7_json_body baseModelStatics "x").2.2.2.2.2.1,
    (c7_json_body baseModelStatics "x").2.2.2.2.2.2.2.1⟩

/-- Claim C8: every request overwrites the outgoing `timeout` with
`getAjaxTimeout()`; `getAjaxTimeout` returns the class-configured timeout
and falls back to `500` whenever that value is unset (`undefined`) or not
a valid number — even though the class declares a documented default of
`30000` (so the declared `BaseModel` default yields `30000`, and `500`
only appears for unset/invalid configurations). -/
theorem c8_timeout (m : ModelStatics) (uri : String) (params : JsonVal) (o : AjaxOptions) :
    (buildRequestOptions m uri params o).timeout = some (getAjaxTimeout m) ∧
    (∀ t : JsonVal, jsToNumber t = none →
      getAjaxTimeout { timeout := t, rootURI := m.rootURI } = 500) ∧
    getAjaxTimeout { timeout := .undefined, rootURI := m.rootURI } = 500 ∧
    baseModelStatics.timeout = .num 30000 ∧
    getAjaxTimeout baseModelStatics = 30000 := by
  refine ⟨?_, fun t ht => ?_, rfl, rfl, rfl⟩
  · unfold buildRequestOptions
    by_cases h : jsTruthy (o.jsonBody.getD JsonVal.undefined) = true <;> simp [h]
  · simp [getAjaxTimeout, ht]

/-- Witness for C8: the declared `BaseModel` statics produce an outgoing
timeout of `30000`, and a non-numeric configured timeout falls back to
`500`. -/
theorem c8_timeout_witness :
    (buildRequestOptions baseModelStatics "x" (JsonVal.obj []) {}).timeout = some 30000 ∧
    getAjaxTimeout { timeout := JsonVal.str "abc", rootURI := baseModelStatics.rootURI } = 500 := by
  refine ⟨((c8_timeout baseModelStatics "x" (JsonVal.obj []) {}).1).trans (by rfl), ?_⟩
  exact (c8_timeout baseModelStatics "x" (JsonVal.obj []) {}).2.1 (JsonVal.str "abc") (by rfl)

/-- Claim C4: compiling `'GET foo/:id': 'fetchFoo'` produces the method
`fetchFoo`; invoking it with a params mapping carrying a truthy `id` issues
a GET to the substituted URI `foo/<id>` with the consumed key removed from
the outgoing body (other keys are kept), and invoking it without `id`
throws the missing-route-parameter DefinitionError. -/
theorem c4_named_placeholder :
    createMethod (.str "fetchFoo") "GET foo/:id" = .ok [("fetchFoo", fooRoute)] ∧
    (∀ v : JsonVal, jsTruthy v = true →
      invoke fooRoute [.obj [("id", v)]] =
        .ok { verb := "get", uri := "foo/" ++ jsToString v, data := .obj [], opts := .obj [] }) ∧
    (∀ v w : JsonVal, jsTruthy v = true →
      invoke fooRoute [.obj [("id", v), ("b", w)]] =
        .ok { verb := "get", uri := "foo/" ++ jsToString v, data := .obj [("b", w)],
              opts := .obj [] }) ∧
    invoke fooRoute [.obj []] =
      .error "The route GET foo/:id must include id in your params" := by
  refine ⟨rfl, fun v hv => ?_, fun v w hv => ?_, rfl⟩
  · have hsub : substTokens [JsonVal.obj [("id", v)]] ([JsonVal.obj [("id", v)]].getD 0 .undefined)
        fooRoute.route (tokenizeUri fooRoute.uri) 0 [] "" =
        .ok ("foo/" ++ jsToString v, 0, ["id"]) := by
      rw [show tokenizeUri fooRoute.uri = [.lit 'f', .lit 'o', .lit 'o', .lit '/', .ph "id"]
        from rfl]
      simp only [substTokens, show ("id".data.headD ' ' == '$') = false from rfl,
        show objGet ([JsonVal.obj [("id", v)]].getD 0 .undefined) "id" = v from rfl,
        show jsTruthy ([JsonVal.obj [("id", v)]].getD 0 .undefined) = true from rfl,
        hv, Bool.true_and, if_true, if_false, Bool.false_eq_true]
      rfl
    unfold invoke
    rw [hsub]
    rfl
  · have hsub : substTokens [JsonVal.obj [("id", v), ("b", w)]]
        ([JsonVal.obj [("id", v), ("b", w)]].getD 0 .undefined)
        fooRoute.route (tokenizeUri fooRoute.uri) 0 [] "" =
        .ok ("foo/" ++ jsToString v, 0, ["id"]) := by
      rw [show tokenizeUri fooRoute.uri = [.lit 'f', .lit 'o', .lit 'o', .lit '/', .ph "id"]
        from rfl]
      simp only [substTokens, show ("id".data.headD ' ' == '$') = false from rfl,
        show objGet ([JsonVal.obj [("id", v), ("b", w)]].getD 0 .undefined) "id" = v from rfl,
        show jsTruthy ([JsonVal.obj [("id", v), ("b", w)]].getD 0 .undefined) = true from rfl,
        hv, Bool.true_and, if_true, if_false, Bool.false_eq_true]
      rfl
    unfold invoke
    rw [hsub]
    rfl

/-- Witness for C4 at `{id: 5}`: the generated method issues `GET foo/5`
with an empty body. -/
theorem c4_named_placeholder_witness :
    createMethod (.str "fetchFoo") "GET foo/:id" = .ok [("fetchFoo", fooRoute)] ∧
    invoke fooRoute [.obj [("id", .num 5)]] =
      .ok { verb := "get", uri := "foo/5", data := .obj [], opts := .obj [] } :=
  ⟨c4_named_placeholder.1, c4_named_placeholder.2.1 (.num 5) rfl⟩

/-- Claim C10: a generated request method decides the presence of a named
placeholder by the truthiness of its value in `params`, not by key
membership — a key present with a falsy value (`0`, `""`, `null`) throws
the missing-route-parameter error instead of substituting. -/
theorem c10_falsy_param_throws (v : JsonVal) (hv : jsTruthy v = false) :
    invoke fooRoute [.obj [("id", v)]] =
      .error "The route GET foo/:id must include id in your params" := by
  have hsub : substTokens [JsonVal.obj [("id", v)]] ([JsonVal.obj [("id", v)]].getD 0 .undefined)
      fooRoute.route (tokenizeUri fooRoute.uri) 0 [] "" =
      .error "The route GET foo/:id must include id in your params" := by
    rw [show tokenizeUri fooRoute.uri = [.lit 'f', .lit 'o', .lit 'o', .lit '/', .ph "id"]
      from rfl]
    simp only [substTokens, show ("id".data.headD ' ' == '$') = false from rfl,
      show objGet ([JsonVal.obj [("id", v)]].getD 0 .undefined) "id" = v from rfl,
      show jsTruthy ([JsonVal.obj [("id", v)]].getD 0 .undefined) = true from rfl,
      hv, Bool.true_and, if_true, if_false, Bool.false_eq_true]
    rfl
  unfold invoke
  rw [hsub]

/-- Witness for C10 at the falsy values `0`, `""` and `null`. -/
theorem c10_falsy_param_throws_witness :
    invoke fooRoute [.obj [("id", .num 0)]] =
      .error "The route GET foo/:id must include id in your params" ∧
    invoke fooRoute [.obj [("id", .str "")]] =
      .error "The route GET foo/:id must include id in your params" ∧
    invoke fooRoute [.obj [("id", .null)]] =
      .error "The route GET foo/:id must include id in your params" :=
  ⟨c10_falsy_param_throws (.num 0) rfl, c10_falsy_param_throws (.str "") rfl,
    c10_falsy_param_throws .null rfl⟩

/-- String append is associative (at the character-list level). -/
theorem str_append_assoc (a b c : String) : a ++ b ++ c = a ++ (b ++ c) := by
  obtain ⟨as⟩ := a
  obtain ⟨bs⟩ := b
  obtain ⟨cs⟩ := c
  exact congrArg String.mk (List.append_assoc as bs cs)

/-- Appending the empty string on the right is the identity. -/
theorem str_append_empty (s : String) : s ++ "" = s := by
  obtain ⟨l⟩ := s
  exact congrArg String.mk (List.append_nil l)

/-- The character data of an appended string. -/
theorem str_data_append (a b : String) : (a ++ b).data = a.data ++ b.data := by
  obtain ⟨as⟩ := a
  obtain ⟨bs⟩ := b
  rfl

/-- Joining a one-element list of strings is that string. -/
theorem string_join_single (s : String) : String.join [s] = s := by
  obtain ⟨l⟩ := s
  exact congrArg String.mk (List.nil_append l)

/-- A string is nonempty exactly when its character data is. -/
theorem str_ne_empty_iff (s : String) : s ≠ "" ↔ s.data ≠ [] := by
  constructor
  · intro h hd
    exact h (String.ext hd)
  · intro h hd
    exact h (congrArg String.data hd)

/-- A right operand with characters keeps an append nonempty. -/
theorem str_append_ne_empty_right (a b : String) (h : b ≠ "") : a ++ b ≠ "" := by
  rw [str_ne_empty_iff, str_data_append]
  intro hd
  exact (str_ne_empty_iff b).mp h (List.append_eq_nil.mp hd).2

/-- Whitespace-freedom is preserved by append. -/
theorem noWs_append (a b : String) (ha : ∀ c ∈ a.data, c.isWhitespace = false)
    (hb : ∀ c ∈ b.data, c.isWhitespace = false) :
    ∀ c ∈ (a ++ b).data, c.isWhitespace = false := by
  intro c hc
  rw [str_data_append] at hc
  rcases List.mem_append.mp hc with h | h
  · exact ha c h
  · exact hb c h

/-- On an all-black run of characters, the field scanner yields the single
field made of the pending accumulator and the run. -/
theorem wsFieldsAux_no_ws (cs : List Char) (acc : List Char)
    (h : ∀ c ∈ cs, c.isWhitespace = false) :
    wsFieldsAux acc cs =
      if (acc.reverse ++ cs).isEmpty then [] else [acc.reverse ++ cs] := by
  induction cs generalizing acc with
  | nil => cases acc <;> simp [wsFieldsAux]
  | cons c cs ih =>
    have hc : c.isWhitespace = false := h c (List.mem_cons_self c cs)
    have h' : ∀ x ∈ cs, x.isWhitespace = false :=
      fun x hx => h x (List.mem_cons_of_mem c hx)
    simp only [wsFieldsAux, hc, Bool.false_eq_true, if_false]
    rw [ih (c :: acc) h']
    simp [List.append_assoc]

/-- The field scanner closes the current field at a space separating two
all-black runs. -/
theorem wsFieldsAux_through_space (vs : List Char) (rs : List Char) (acc : List Char)
    (h : ∀ c ∈ vs, c.isWhitespace = false) (hne : acc ≠ [] ∨ vs ≠ []) :
    wsFieldsAux acc (vs ++ ' ' :: rs) = (acc.reverse ++ vs) :: wsFieldsAux [] rs := by
  induction vs generalizing acc with
  | nil =>
    rcases hne with hne | hne
    · have hacc : acc.isEmpty = false := by
        cases acc with
        | nil => exact absurd rfl hne
        | cons a as => rfl
      simp [wsFieldsAux, hacc]
    · exact absurd rfl hne
  | cons v vs ih =>
    have hv : v.isWhitespace = false := h v (List.mem_cons_self v vs)
    have h' : ∀ x ∈ vs, x.isWhitespace = false :=
      fun x hx => h x (List.mem_cons_of_mem v hx)
    simp only [List.cons_append, wsFieldsAux, hv, Bool.false_eq_true, if_false]
    exact (ih (v :: acc) h' (Or.inl (by simp))).trans (by simp [List.append_assoc])

/-- A route string of the shape `"VERB rest"`, both parts whitespace-free
and nonempty, splits into exactly those two fields. -/
theorem splitWs_two (v r : String) (hv : ∀ c ∈ v.data, c.isWhitespace = false)
    (hr : ∀ c ∈ r.data, c.isWhitespace = false) (hv0 : v ≠ "") (hr0 : r ≠ "") :
    splitWs (v ++ " " ++ r) = [v, r] := by
  obtain ⟨vs⟩ := v
  obtain ⟨rs⟩ := r
  have hvs : vs ≠ [] := (str_ne_empty_iff ⟨vs⟩).mp hv0
  have hrs : rs ≠ [] := (str_ne_empty_iff ⟨rs⟩).mp hr0
  have hdata : (String.mk vs ++ " " ++ String.mk rs).data = vs ++ ' ' :: rs := by
    rw [str_data_append, str_data_append, List.append_assoc]
    rfl
  unfold splitWs
  rw [hdata, wsFieldsAux_through_space vs rs [] hv (Or.inr hvs),
    wsFieldsAux_no_ws rs [] hr]
  have : (([] : List Char).reverse ++ rs).isEmpty = false := by
    cases rs with
    | nil => exact absurd rfl hrs
    | cons a as => rfl
  rw [this]
  simp

/-- `routeParts` on a two-field route string: the verb lower-cased and the
URI part. -/
theorem routeParts_verb (m r : String) (hm : ∀ c ∈ m.data, c.isWhitespace = false)
    (hr : ∀ c ∈ r.data, c.isWhitespace = false) (hm0 : m ≠ "") (hr0 : r ≠ "") :
    routeParts (m ++ " " ++ r) = (jsToLower m, r) := by
  unfold routeParts
  rw [splitWs_two m r hm hr hm0 hr0]
  simp [string_join_single]

/-- Camel-casing only changes the first character, not the length. -/
theorem camelCase_length (s : String) : (camelCase s).length = s.length := by
  obtain ⟨l⟩ := s
  cases l with
  | nil => rfl
  | cons c cs => rfl

/-- Appending the same suffix to two strings of equal length that differ
keeps them different. -/
theorem str_append_right_ne_of_ne (a b x : String) (hl : a.length = b.length)
    (h : a ≠ b) : a ++ x ≠ b ++ x := by
  obtain ⟨as⟩ := a
  obtain ⟨bs⟩ := b
  obtain ⟨xs⟩ := x
  intro he
  apply h
  have hd : as ++ xs = bs ++ xs := by
    have := congrArg String.data he
    rw [str_data_append, str_data_append] at this
    exact this
  exact String.ext (List.append_inj hd hl).1

/-- Appending the same suffix to two strings of different lengths keeps
them different. -/
theorem str_append_right_ne_of_length (a b x : String) (hl : a.length ≠ b.length) :
    a ++ x ≠ b ++ x := by
  intro he
  apply hl
  have hle := congrArg String.length he
  rw [String.length_append, String.length_append] at hle
  omega

/-- Evaluation of the CRUD expansion for a whitespace-free name mapped to
itself: the four generated entries with their verbs, URIs and route
strings. -/
theorem crudExpand_eval (name : String) (h : ∀ c ∈ name.data, c.isWhitespace = false)
    (h0 : name ≠ "") :
    crudExpand name name = [
      ("requestCreate" ++ camelCase name,
        { verb := "post", uri := name, route := "POST " ++ name, staticOpts := none }),
      ("requestOne" ++ camelCase name,
        { verb := "get", uri := name ++ "/:$0", route := "GET " ++ (name ++ "/:$0"),
          staticOpts := none }),
      ("requestUpdate" ++ camelCase name,
        { verb := "put", uri := name ++ "/:id", route := "PUT " ++ (name ++ "/:id"),
          staticOpts := none }),
      ("requestDelete" ++ camelCase name,
        { verb := "del", uri := name ++ "/:id", route := "DEL " ++ (name ++ "/:id"),
          staticOpts := none })] := by
  have hms : ∀ c ∈ ("/:$0" : String).data, c.isWhitespace = false := by decide
  have hid : ∀ c ∈ ("/:id" : String).data, c.isWhitespace = false := by decide
  unfold crudExpand
  simp only [List.map_cons, List.map_nil]
  rw [show crudSuffix "POST" = "" from rfl, show crudSuffix "GET" = "/:$0" from rfl,
    show crudSuffix "PUT" = "/:id" from rfl, show crudSuffix "DEL" = "/:id" from rfl,
    str_append_empty ("POST" ++ " " ++ name),
    str_append_assoc ("GET" ++ " ") name "/:$0",
    str_append_assoc ("PUT" ++ " ") name "/:id",
    str_append_assoc ("DEL" ++ " ") name "/:id",
    routeParts_verb "POST" name (by decide) h (by decide) h0,
    routeParts_verb "GET" (name ++ "/:$0") (by decide) (noWs_append name "/:$0" h hms)
      (by decide) (str_append_ne_empty_right name "/:$0" (by decide)),
    routeParts_verb "PUT" (name ++ "/:id") (by decide) (noWs_append name "/:id" h hid)
      (by decide) (str_append_ne_empty_right name "/:id" (by decide)),
    routeParts_verb "DEL" (name ++ "/:id") (by decide) (noWs_append name "/:id" h hid)
      (by decide) (str_append_ne_empty_right name "/:id" (by decide))]
  simp [mkRoute]
  exact ⟨⟨rfl, rfl⟩, ⟨rfl, rfl⟩, ⟨rfl, rfl⟩, rfl, fun hcontra => rfl⟩

/-- Claim C3: a `'CRUD <name>': '<name>'` route map entry generates exactly
four request methods — `requestCreate<Name>` dispatching POST to `<name>`,
`requestOne<Name>` dispatching GET to `<name>/:$0`, `requestUpdate<Name>`
dispatching PUT to `<name>/:id`, and `requestDelete<Name>` dispatching DEL
(whose shorthand issues HTTP DELETE) to `<name>/:id`, where `<Name>` is the
camel-cased name — and no method is generated for the CRUD entry itself:
compiling a route map with that single entry yields exactly the four
methods, none of whose names is the entry's own name. -/
theorem c3_crud_expansion (name : String) (h : ∀ c ∈ name.data, c.isWhitespace = false)
    (h0 : name ≠ "") :
    createMethod (.str name) ("CRUD " ++ name) = .ok [
      ("requestCreate" ++ camelCase name,
        { verb := "post", uri := name, route := "POST " ++ name, staticOpts := none }),
      ("requestOne" ++ camelCase name,
        { verb := "get", uri := name ++ "/:$0", route := "GET " ++ (name ++ "/:$0"),
          staticOpts := none }),
      ("requestUpdate" ++ camelCase name,
        { verb := "put", uri := name ++ "/:id", route := "PUT " ++ (name ++ "/:id"),
          staticOpts := none }),
      ("requestDelete" ++ camelCase name,
        { verb := "del", uri := name ++ "/:id", route := "DEL " ++ (name ++ "/:id"),
          staticOpts := none })] ∧
    createModelRequestMethods [("CRUD " ++ name, .str name)] = .ok [
      ("requestCreate" ++ camelCase name,
        { verb := "post", uri := name, route := "POST " ++ name, staticOpts := none }),
      ("requestOne" ++ camelCase name,
        { verb := "get", uri := name ++ "/:$0", route := "GET " ++ (name ++ "/:$0"),
          staticOpts := none }),
      ("requestUpdate" ++ camelCase name,
        { verb := "put", uri := name ++ "/:id", route := "PUT " ++ (name ++ "/:id"),
          staticOpts := none }),
      ("requestDelete" ++ camelCase name,
        { verb := "del", uri := name ++ "/:id", route := "DEL " ++ (name ++ "/:id"),
          staticOpts := none })] ∧
    ("requestCreate" ++ camelCase name ≠ name ∧ "requestOne" ++ camelCase name ≠ name ∧
      "requestUpdate" ++ camelCase name ≠ name ∧ "requestDelete" ++ camelCase name ≠ name) ∧
    (∀ (m : ModelStatics) (u : String) (p : JsonVal),
      (postRequestOptions m u p {}).type = some "POST" ∧
      (getRequestOptions m u p {}).type = some "GET" ∧
      (putRequestOptions m u p {}).type = some "PUT" ∧
      (delRequestOptions m u p {}).type = some "DELETE") := by
  have hparts : routeParts ("CRUD " ++ name) = ("crud", name) :=
    routeParts_verb "CRUD" name (by decide) h (by decide) h0
  have hcm : createMethod (.str name) ("CRUD " ++ name) = .ok [
      ("requestCreate" ++ camelCase name,
        { verb := "post", uri := name, route := "POST " ++ name, staticOpts := none }),
      ("requestOne" ++ camelCase name,
        { verb := "get", uri := name ++ "/:$0", route := "GET " ++ (name ++ "/:$0"),
          staticOpts := none }),
      ("requestUpdate" ++ camelCase name,
        { verb := "put", uri := name ++ "/:id", route := "PUT " ++ (name ++ "/:id"),
          staticOpts := none }),
      ("requestDelete" ++ camelCase name,
        { verb := "del", uri := name ++ "/:id", route := "DEL " ++ (name ++ "/:id"),
          staticOpts := none })] := by
    simp only [createMethod, extractRouteFn, hparts, beq_self_eq_true, if_true]
    rw [crudExpand_eval name h h0]
  have hbeqCO : (("requestCreate" ++ camelCase name) == ("requestOne" ++ camelCase name))
      = false :=
    beq_eq_false_iff_ne.mpr
      (str_append_right_ne_of_length "requestCreate" "requestOne" (camelCase name) (by decide))
  have hbeqCU : (("requestCreate" ++ camelCase name) == ("requestUpdate" ++ camelCase name))
      = false :=
    beq_eq_false_iff_ne.mpr
      (str_append_right_ne_of_ne "requestCreate" "requestUpdate" (camelCase name)
        (by decide) (by decide))
  have hbeqOU : (("requestOne" ++ camelCase name) == ("requestUpdate" ++ camelCase name))
      = false :=
    beq_eq_false_iff_ne.mpr
      (str_append_right_ne_of_length "requestOne" "requestUpdate" (camelCase name) (by decide))
  have hbeqCD : (("requestCreate" ++ camelCase name) == ("requestDelete" ++ camelCase name))
      = false :=
    beq_eq_false_iff_ne.mpr
      (str_append_right_ne_of_ne "requestCreate" "requestDelete" (camelCase name)
        (by decide) (by decide))
  have hbeqOD : (("requestOne" ++ camelCase name) == ("requestDelete" ++ camelCase name))
      = false :=
    beq_eq_false_iff_ne.mpr
      (str_append_right_ne_of_length "requestOne" "requestDelete" (camelCase name) (by decide))
  have hbeqUD : (("requestUpdate" ++ camelCase name) == ("requestDelete" ++ camelCase name))
      = false :=
    beq_eq_false_iff_ne.mpr
      (str_append_right_ne_of_ne "requestUpdate" "requestDelete" (camelCase name)
        (by decide) (by decide))
  have hcmm : createModelRequestMethods [("CRUD " ++ name, .str name)] = .ok [
      ("requestCreate" ++ camelCase name,
        { verb := "post", uri := name, route := "POST " ++ name, staticOpts := none }),
      ("requestOne" ++ camelCase name,
        { verb := "get", uri := name ++ "/:$0", route := "GET " ++ (name ++ "/:$0"),
          staticOpts := none }),
      ("requestUpdate" ++ camelCase name,
        { verb := "put", uri := name ++ "/:id", route := "PUT " ++ (name ++ "/:id"),
          staticOpts := none }),
      ("requestDelete" ++ camelCase name,
        { verb := "del", uri := name ++ "/:id", route := "DEL " ++ (name ++ "/:id"),
          staticOpts := none })] := by
    simp [createModelRequestMethods, hcm, objSet,
      hbeqCO, hbeqCU, hbeqOU, hbeqCD, hbeqOD, hbeqUD]
  refine ⟨hcm, hcmm, ⟨?_, ?_, ?_, ?_⟩, fun m u p => ⟨rfl, rfl, rfl, rfl⟩⟩
  · intro he
    have hlen := congrArg String.length he
    rw [String.length_append, camelCase_length,
      show ("requestCreate" : String).length = 13 from rfl] at hlen
    omega
  · intro he
    have hlen := congrArg String.length he
    rw [String.length_append, camelCase_length,
      show ("requestOne" : String).length = 10 from rfl] at hlen
    omega
  · intro he
    have hlen := congrArg String.length he
    rw [String.length_append, camelCase_length,
      show ("requestUpdate" : String).length = 13 from rfl] at hlen
    omega
  · intro he
    have hlen := congrArg String.length he
    rw [String.length_append, camelCase_length,
      show ("requestDelete" : String).length = 13 from rfl] at hlen
    omega

/-- Witness for C3 at the name `widget`. -/
theorem c3_crud_expansion_witness :
    createModelRequestMethods [("CRUD widget", .str "widget")] = .ok [
      ("requestCreateWidget",
        { verb := "post", uri := "widget", route := "POST widget", staticOpts := none }),
      ("requestOneWidget",
        { verb := "get", uri := "widget/:$0", route := "GET widget/:$0", staticOpts := none }),
      ("requestUpdateWidget",
        { verb := "put", uri := "widget/:id", route := "PUT widget/:id", staticOpts := none }),
      ("requestDeleteWidget",
        { verb := "del", uri := "widget/:id", route := "DEL widget/:id", staticOpts := none })] ∧
    "requestCreateWidget" ≠ "widget" :=
  ⟨(c3_crud_expansion "widget" (by decide) (by decide)).2.1,
    (c3_crud_expansion "widget" (by decide) (by decide)).2.2.1.1⟩

end Vertebrae
